import Mathlib

/-!
Verification of the agentic build orchestrator (nelta repository) against its
natural-language specification.

The development shallowly embeds the relevant parts of
`src/lib/sandbox-manager.ts` and `src/inngest/langchain-function.ts`:
JavaScript strings become `String`, optional/possibly-absent object fields
become `Option String` (with JS truthiness `truthy`), the remote sandbox and
the model are oracles passed as functions, and side effects (mkdir/write
calls against the sandbox filesystem) are reified as a trace of operations.
-/

namespace Nelta

/-- JS truthiness of a possibly-absent string field: `undefined`, `null` and
the empty string are falsy, every other string is truthy. -/
def truthy : Option String → Bool
  | some s => !(s == "")
  | none => false

/-- Character-list helper: the characters strictly before the last '/' of the
string (the JS `s.substring(0, s.lastIndexOf("/"))` when a slash exists,
`""` otherwise). -/
def beforeLastSlash (s : String) : String :=
  String.mk (((s.toList.reverse.dropWhile (fun c => c ≠ '/')).drop 1).reverse)

/-- Path normalization shared by `writeFilesToSandbox` (sandbox-manager.ts:59)
and the `createOrUpdateFiles` tool (langchain-function.ts:124-126):
`p.replace(/^\/+/, "").replace(/^home\/user\//, "")`. -/
def cleanPath (p : String) : String :=
  let s := p.toList.dropWhile (fun c => c = '/')
  if "home/user/".toList.isPrefixOf s then String.mk (s.drop 10) else String.mk s

/-- The `hostname.replace(/^https?:\/\//, "")` step of `buildSandboxUrl`. -/
def stripScheme (h : String) : String :=
  let cs := h.toList
  if "https://".toList.isPrefixOf cs then String.mk (cs.drop 8)
  else if "http://".toList.isPrefixOf cs then String.mk (cs.drop 7)
  else h

/-! ## Sandbox hostname resolution, langchain-function.ts:13-37 -/

namespace Langchain

/-- The heterogeneous sandbox object shape probed by `getSandboxHostname`
(langchain-function.ts): each field is a possibly-absent string; `getHostname`
is `some r` when the object has a callable `getHostname` returning `r`. -/
structure SandboxShape where
  sandboxId : Option String
  sandboxDomain : Option String
  getHostname : Option String
  host : Option String
  hostname : Option String

/-- langchain-function.ts:13-37 `getSandboxHostname`: probes
`sandboxId`+`sandboxDomain`, then `sandboxId` alone (defaulting the domain to
`e2b.dev`), then a callable `getHostname`, then `host`, then `hostname`, and
throws when none of those is truthy. -/
def getSandboxHostname (s : SandboxShape) : Except String String :=
  if truthy s.sandboxId && truthy s.sandboxDomain then
    .ok (s.sandboxId.getD "" ++ "." ++ s.sandboxDomain.getD "")
  else if truthy s.sandboxId then
    .ok (s.sandboxId.getD "" ++ ".e2b.dev")
  else if truthy s.getHostname then
    .ok (s.getHostname.getD "")
  else if truthy s.host then
    .ok (s.host.getD "")
  else if truthy s.hostname then
    .ok (s.hostname.getD "")
  else
    .error "Unable to resolve sandbox hostname"

/-- langchain-function.ts:39-45 `buildSandboxUrl`: both branches produce
`https://3000-<stripped hostname>` (the `port` parameter is ignored). -/
def buildSandboxUrl (hostname : String) : String :=
  "https://3000-" ++ stripScheme hostname

/-- Candidate hostnames in the priority order the source actually uses,
written as a list for the amended resolution claim: identifier-plus-domain,
identifier with the default domain `e2b.dev`, callable getter, explicit
`host`, then `hostname`; a candidate whose field is absent or empty does not
resolve. -/
def candidateHostnames (s : SandboxShape) : List (Option String) :=
  [ (if truthy s.sandboxId && truthy s.sandboxDomain then
       some (s.sandboxId.getD "" ++ "." ++ s.sandboxDomain.getD "")
     else none),
    (if truthy s.sandboxId then some (s.sandboxId.getD "" ++ ".e2b.dev") else none),
    (if truthy s.getHostname then s.getHostname else none),
    (if truthy s.host then s.host else none),
    (if truthy s.hostname then s.hostname else none) ]

/-- First candidate that resolved. -/
def firstSome : List (Option String) → Option String
  | [] => none
  | some h :: _ => some h
  | none :: rest => firstSome rest

/-- Resolution as the amended claim words it: return the first candidate that
resolves in priority order, and fail loudly when there is none. -/
def resolveHostnameAmended (s : SandboxShape) : Except String String :=
  match firstSome (candidateHostnames s) with
  | some h => .ok h
  | none => .error "Unable to resolve sandbox hostname"

/-! ## The terminal tool executor, langchain-function.ts:89-105 -/

/-- Outcome of `sandbox.commands.run` as seen by the terminal tool: either a
result carrying `stdout` and `stderr`, or a thrown error with a message. -/
inductive CmdOutcome where
  | ok (stdout stderr : String)
  | err (message : String)

/-- langchain-function.ts:93-104, the body of the `terminal` tool: on success
`result.stdout || result.stderr || "Command executed successfully"` (JS `||`
on strings picks the first non-empty one); a thrown sandbox error is caught
and returned as `Error executing command: <message>`. -/
def terminalFunc : CmdOutcome → String
  | .ok out errS =>
    if out ≠ "" then out
    else if errS ≠ "" then errS
    else "Command executed successfully"
  | .err m => "Error executing command: " ++ m

end Langchain

/-! ## sandbox-manager.ts -/

namespace SandboxManager

/-- Shape of a sandbox object as probed by sandbox-manager.ts:16-28: only
`sandboxId` and `sandboxDomain` are consulted there. -/
structure SandboxInfo where
  sandboxId : Option String
  sandboxDomain : Option String

/-- sandbox-manager.ts:16-28 `getSandboxHostname`: identifier-plus-domain,
then identifier with default domain `e2b.dev`, else throw. -/
def getSandboxHostname (s : SandboxInfo) : Except String String :=
  if truthy s.sandboxId && truthy s.sandboxDomain then
    .ok (s.sandboxId.getD "" ++ "." ++ s.sandboxDomain.getD "")
  else if truthy s.sandboxId then
    .ok (s.sandboxId.getD "" ++ ".e2b.dev")
  else
    .error "Unable to resolve sandbox hostname"

/-- sandbox-manager.ts:33-36 `buildSandboxUrl(hostname, port = 3000)`:
`https://<port>-<stripped hostname>`. -/
def buildSandboxUrl (hostname : String) (port : Nat) : String :=
  "https://" ++ toString port ++ "-" ++ stripScheme hostname

/-! ### The file-write path (sandbox-manager.ts:41-89)

Side effects against the sandbox are reified as a trace of operations:
`ensureDirectoryExists` emits a `mkdirP` (an idempotent `mkdir -p`),
`sandbox.files.write` emits a `write`. -/

/-- One sandbox-filesystem effect. -/
inductive FsOp where
  | mkdirP (dir : String)
  | write (path : String) (content : String)
deriving DecidableEq

/-- JS `Set` insertion: append when not already present (preserves insertion
order, deduplicates). -/
def insertUnique (l : List String) (x : String) : List String :=
  if x ∈ l then l else l ++ [x]

/-- First pass of `writeFilesToSandbox` (sandbox-manager.ts:57-66): the set of
parent directories to create, in insertion order. -/
def dirsToCreate (files : List (String × String)) : List String :=
  files.foldl
    (fun acc f =>
      let cp := cleanPath f.1
      if cp.toList.contains '/' then
        let dir := beforeLastSlash cp
        if dir ≠ "" then insertUnique acc ("/home/user/" ++ dir) else acc
      else acc)
    []

/-- Second pass of `writeFilesToSandbox` (sandbox-manager.ts:73-88): for each
file, re-ensure its parent directory (unless it is the working root itself)
and then write `/home/user/<cleanPath>`. -/
def fileBlock (f : String × String) : List FsOp :=
  let cp := cleanPath f.1
  let fullPath := "/home/user/" ++ cp
  let dir := beforeLastSlash fullPath
  (if dir ≠ "" ∧ dir ≠ "/home/user" then [FsOp.mkdirP dir] else [])
    ++ [FsOp.write fullPath f.2]

/-- The per-file pass as a whole, in file order. -/
def writeFileOps (files : List (String × String)) : List FsOp :=
  (files.map fileBlock).flatten

/-- sandbox-manager.ts:52-89 `writeFilesToSandbox`: the full trace of sandbox
effects — the up-front directory pass followed by the per-file pass.  The
`createOrUpdateFiles` tool (langchain-function.ts:117-176) performs the same
two passes. -/
def writeFilesToSandbox (files : List (String × String)) : List FsOp :=
  (dirsToCreate files).map FsOp.mkdirP ++ writeFileOps files

/-- Number of directory-creation calls in a trace. -/
def countMkdirs (ops : List FsOp) : Nat :=
  (ops.filter fun op => match op with | FsOp.mkdirP _ => true | _ => false).length

/-- The file contents a trace replays onto the sandbox, in order. -/
def replayedWrites (ops : List FsOp) : List (String × String) :=
  ops.filterMap fun op => match op with
    | FsOp.write p c => some (p, c)
    | _ => none

/-- Does the parent directory of the write target `p` need no creation (root
or empty) or appear among the already-created directories? -/
def parentEnsured (created : List String) (p : String) : Bool :=
  let dir := beforeLastSlash p
  dir = "" || dir = "/home/user" || created.contains dir

/-- Every `write` in the trace is preceded by a `mkdirP` of its parent
directory (tracked in `created`), unless the parent is the working root. -/
def ensuredBeforeB (created : List String) : List FsOp → Bool
  | [] => true
  | .mkdirP d :: rest => ensuredBeforeB (d :: created) rest
  | .write p _ :: rest => parentEnsured created p && ensuredBeforeB created rest

/-- The sandbox filesystem as an extensional store: which directories exist
and what content each file path holds. -/
@[ext] structure SandboxFS where
  dirs : String → Bool
  fileAt : String → Option String

/-- Effect of one operation on the store: `mkdir -p` adds the directory
(idempotently), a write sets the path's content. -/
def applyOp (fs : SandboxFS) : FsOp → SandboxFS
  | .mkdirP d => { fs with dirs := fun e => e == d || fs.dirs e }
  | .write p c => { fs with fileAt := fun q => if q = p then some c else fs.fileAt q }

/-- Effect of a whole trace, in order. -/
def applyOps (fs : SandboxFS) (ops : List FsOp) : SandboxFS :=
  ops.foldl applyOp fs

/-- Left-biased choice between optional file contents. -/
def orO (a b : Option String) : Option String :=
  match a with
  | some c => some c
  | none => b

/-- The content of the last write to path `q` in a trace, if any. -/
def lastWriteIn : List FsOp → String → Option String
  | [], _ => none
  | FsOp.write p c :: rest, q => orO (lastWriteIn rest q) (if q = p then some c else none)
  | FsOp.mkdirP _ :: rest, q => lastWriteIn rest q

/-- Does the trace create directory `e`? -/
def hasMkdir : List FsOp → String → Bool
  | [], _ => false
  | FsOp.mkdirP d :: rest, e => e == d || hasMkdir rest e
  | FsOp.write _ _ :: rest, e => hasMkdir rest e

/-! ### Readiness probing and server start (sandbox-manager.ts:94-124) -/

/-- The probe budget of the readiness loop (`for (let i = 0; i < 40; i++)`),
sandbox-manager.ts:102 and langchain-function.ts:391. -/
def attemptBudget : Nat := 40

/-- The readiness polling loop: `responds i` abstracts whether the `i`-th
HEAD fetch both succeeds and returns `res.ok`.  Returns the number of
attempts performed and whether the server was confirmed ready. -/
def probeLoop (responds : Nat → Bool) : Nat → Nat → Nat × Bool
  | 0, attempts => (attempts, false)
  | n + 1, attempts =>
    if responds attempts then (attempts + 1, true)
    else probeLoop responds n (attempts + 1)

/-- The readiness probe with the source's fixed budget of 40 attempts. -/
def probe (responds : Nat → Bool) : Nat × Bool :=
  probeLoop responds attemptBudget 0

/-- sandbox-manager.ts:94-124 `startNextServer`: start the dev server, poll
readiness, and return `buildSandboxUrl(hostname, 3000)` when confirmed ready
or `buildSandboxUrl(hostname)` (default port 3000) otherwise. -/
def startNextServer (responds : Nat → Bool) (hostname : String) : String :=
  if (probe responds).2 then buildSandboxUrl hostname 3000
  else buildSandboxUrl hostname 3000

/-! ### Sandbox-identifier extraction (sandbox-manager.ts:166-167)

`currentUrl.match(/https:\/\/\d+-([^.]+)/)` searched left to right: at the
first position where the literal `https://`, then one or more digits, then
`-`, then one or more non-dot characters match, the captured group is that
maximal run of non-dot characters. -/

/-- Decimal digit test for the `\d` character class. -/
def isDigitC (c : Char) : Bool := '0' ≤ c && c ≤ '9'

/-- Consume an expected literal pattern from the front of the input. -/
def dropLiteral : List Char → List Char → Option (List Char)
  | [], cs => some cs
  | _ :: _, [] => none
  | p :: ps, c :: cs => if c = p then dropLiteral ps cs else none

/-- Try the regex `https:\/\/\d+-([^.]+)` at the head of the input and return
the captured group. -/
def matchIdAt (cs : List Char) : Option String :=
  match dropLiteral "https://".toList cs with
  | none => none
  | some rest =>
    let ds := rest.takeWhile isDigitC
    if ds.isEmpty then none
    else
      match rest.drop ds.length with
      | '-' :: after =>
        let idc := after.takeWhile (fun c => c ≠ '.')
        if idc.isEmpty then none else some (String.mk idc)
      | _ => none

/-- Leftmost match of the pattern anywhere in the input. -/
def searchSandboxId : List Char → Option String
  | [] => none
  | c :: cs =>
    match matchIdAt (c :: cs) with
    | some r => some r
    | none => searchSandboxId cs

/-- The sandbox identifier embedded in a stored sandbox URL, when the URL
matches `https://<digits>-<identifier>` (sandbox-manager.ts:166-167). -/
def extractSandboxId (url : String) : Option String :=
  searchSandboxId url.toList

/-! ### getOrRecreateSandbox (sandbox-manager.ts:145-215) -/

/-- A persisted fragment as `getOrRecreateSandbox` reads it: the saved
FileSet and the stored sandbox URL. -/
structure Fragment where
  files : List (String × String)
  sandboxUrl : String

/-- The environment of one `getOrRecreateSandbox` call: the liveness probe's
verdict per sandbox identifier, the sandbox object `Sandbox.create` returns,
and the readiness oracle for a restarted dev server. -/
structure RecreateEnv where
  alive : String → Bool
  newSandbox : SandboxInfo
  serverResponds : Nat → Bool

/-- What `getOrRecreateSandbox` returns, together with the reified trace of
file operations replayed on the (new) sandbox — empty when reusing. -/
structure RecreateResult where
  url : String
  isNew : Bool
  replayOps : List FsOp
deriving DecidableEq

/-- Truthy lookup in a persisted FileSet, for the
`Boolean(files["app/page.tsx"] && files["package.json"])` check
(sandbox-manager.ts:194). -/
def truthyFile (files : List (String × String)) (p : String) : Bool :=
  match (files.find? fun e => e.1 = p).map (·.2) with
  | some c => !(c == "")
  | none => false

/-- sandbox-manager.ts:194 `hasNextApp`. -/
def hasNextApp (files : List (String × String)) : Bool :=
  truthyFile files "app/page.tsx" && truthyFile files "package.json"

/-- sandbox-manager.ts:180-214, the dead-sandbox branch: create a sandbox,
replay the saved files, resolve its hostname (throwing when unresolvable),
start the dev server when the FileSet looks like a Next.js app, and return
the new URL with `isNew = true`. -/
def createNewSandbox (env : RecreateEnv) (frag : Fragment) : Except String RecreateResult :=
  let ops := writeFilesToSandbox frag.files
  match getSandboxHostname env.newSandbox with
  | .error e => .error e
  | .ok hostname =>
    let url :=
      if hasNextApp frag.files then startNextServer env.serverResponds hostname
      else buildSandboxUrl hostname 3000
    .ok ⟨url, true, ops⟩

/-- sandbox-manager.ts:145-215 `getOrRecreateSandbox`: when the stored URL
embeds a sandbox identifier and that sandbox answers the liveness probe,
reconnect and return the stored URL with `isNew = false`; otherwise create a
fresh sandbox from the saved files. -/
def getOrRecreateSandbox (env : RecreateEnv) (frag : Fragment) : Except String RecreateResult :=
  match extractSandboxId frag.sandboxUrl with
  | some sid =>
    if env.alive sid then .ok ⟨frag.sandboxUrl, false, []⟩
    else createNewSandbox env frag
  | none => createNewSandbox env frag

end SandboxManager

/-! ## The agent loop, langchain-function.ts:249-310 -/

namespace Langchain

/-- A structured tool call emitted by the model (`tc.name`, `tc.id`; the
arguments are absorbed into the tool-execution oracles below). -/
structure ToolCall where
  name : String
  id : String
deriving DecidableEq

/-- One model response: the (possibly empty) text content and the list of
tool calls.  Absent content is modelled as `""`. -/
structure ModelResp where
  content : String
  toolCalls : List ToolCall
deriving DecidableEq

/-- One transcript turn as the loop appends it: a role, text content, and
for tool turns the correlating `tool_call_id`. -/
structure Msg where
  role : String
  content : String
  toolCallId : Option String
deriving DecidableEq

/-- Oracles for what the three registered tool executors return for a given
call.  Each executor catches its own errors internally and always returns
text; the terminal tool's text is `terminalFunc` of the command outcome. -/
structure ToolEnv where
  terminalOutcome : ToolCall → CmdOutcome
  fileWriteResult : ToolCall → String
  readFilesResult : ToolCall → String

/-- langchain-function.ts:277-289, the `switch (tc.name)` dispatch: the three
registered executors, and `Unknown tool: <name>` for any other name. -/
def dispatchTool (env : ToolEnv) (tc : ToolCall) : String :=
  if tc.name = "terminal" then terminalFunc (env.terminalOutcome tc)
  else if tc.name = "createOrUpdateFiles" then env.fileWriteResult tc
  else if tc.name = "readFiles" then env.readFilesResult tc
  else "Unknown tool: " ++ tc.name

/-- JS `txt.trim()` truthiness: some non-whitespace character exists. -/
def hasVisibleText (s : String) : Bool :=
  s.toList.any fun c => !(c = ' ' || c = '\t' || c = '\n' || c = '\r')

/-- Loop state: the transcript, the captured assistant texts, the iteration
counter, and (ghost) the number of model invocations made so far. -/
structure LoopState where
  messages : List Msg
  assistantTexts : List String
  iterations : Nat
  invocations : Nat
deriving DecidableEq

/-- langchain-function.ts:258-265: when the response carries non-blank text,
record it as a candidate final response and append an assistant turn. -/
def processResp (st : LoopState) (resp : ModelResp) : LoopState :=
  if hasVisibleText resp.content then
    { st with
      assistantTexts := st.assistantTexts ++ [resp.content]
      messages := st.messages ++ [⟨"assistant", resp.content, none⟩] }
  else st

/-- One tool turn per call, in the order received, each correlated by
`tool_call_id` (langchain-function.ts:273-296). -/
def toolTurns (env : ToolEnv) (tcs : List ToolCall) : List Msg :=
  tcs.map fun tc => ⟨"tool", dispatchTool env tc, some tc.id⟩

/-- langchain-function.ts:255-299, the `while (iterations < maxIterations)`
loop.  `resps` abstracts the model: the response to the n-th invocation.
The fuel argument is `maxIterations - iterations`; a pass with no tool calls
breaks immediately, a pass with tool calls appends their turns and
increments `iterations`. -/
def agentLoop (env : ToolEnv) (resps : Nat → ModelResp) : Nat → LoopState → LoopState
  | 0, st => st
  | fuel + 1, st =>
    let resp := resps st.invocations
    let st1 := processResp { st with invocations := st.invocations + 1 } resp
    if resp.toolCalls.isEmpty then st1
    else
      agentLoop env resps fuel
        { st1 with
          messages := st1.messages ++ toolTurns env resp.toolCalls
          iterations := st1.iterations + 1 }

/-- langchain-function.ts:252 `maxIterations`. -/
def maxIterations : Nat := 10

/-- The loop's starting state over an initial transcript. -/
def initialState (msgs : List Msg) : LoopState :=
  ⟨msgs, [], 0, 0⟩

/-- langchain-function.ts:249-310: run the bounded loop, then — exactly when
no assistant text was captured — make one additional non-tool model call for
a fallback summary (langchain-function.ts:301-310).  Returns the final state
and whether the fallback was issued. -/
def runAgent (env : ToolEnv) (resps : Nat → ModelResp) (msgs : List Msg) :
    LoopState × Bool :=
  let st := agentLoop env resps maxIterations (initialState msgs)
  if st.assistantTexts.isEmpty then
    ({ st with
        invocations := st.invocations + 1
        assistantTexts := st.assistantTexts ++ [(resps st.invocations).content] },
      true)
  else (st, false)

end Langchain

/-! ## The step-checkpoint skeleton of the orchestration

The Step Checkpoint Executor itself (`step.run`) is the workflow runtime's,
not part of this repository's sources; it is modelled from the spec.  The
skeletons below record, per phase, whether the source routes it through
`step.run`, and count the side effects across re-invocations of the same run
instance. -/

namespace Orchestration

/-- Durable state of one run instance: which named steps completed, plus
effect counters for the four phases the claim names. -/
structure RunState where
  completed : List String
  sandboxCreations : Nat
  messageLoads : Nat
  fileDiscoveries : Nat
  dbSaves : Nat
deriving DecidableEq

/-- Modelled from the spec: the Step Checkpoint Executor `step.run(name, fn)`
of the workflow runtime (not under src/) — a step whose name already
completed for this run instance is not re-executed and its recorded result
is returned; otherwise `fn` runs and the step is recorded as completed. -/
def stepRun (name : String) (fn : RunState → RunState) (st : RunState) : RunState :=
  if name ∈ st.completed then st
  else
    let st1 := fn st
    { st1 with completed := st1.completed ++ [name] }

/-- Effect skeleton of `codeAgentFunction` in langchain-function.ts: sandbox
creation is a direct `await Sandbox.create(...)` (line 68, not routed through
`step.run`), while message loading (line 231, `load-messages`), file
discovery (line 315, `discover-files`) and result persistence (line 420,
`save-to-database`) run through `step.run`. -/
def codeAgentSkeleton (st : RunState) : RunState :=
  let st1 := { st with sandboxCreations := st.sandboxCreations + 1 }
  let st2 := stepRun "load-messages" (fun s => { s with messageLoads := s.messageLoads + 1 }) st1
  let st3 := stepRun "discover-files" (fun s => { s with fileDiscoveries := s.fileDiscoveries + 1 }) st2
  stepRun "save-to-database" (fun s => { s with dbSaves := s.dbSaves + 1 }) st3

/-- Effect skeleton of the alternate `codeAgentFunction` in
src/unnamed/part_004, where sandbox creation is wrapped:
`sandbox = await step.run("create-sandbox", ...)` (part_004:30-38). -/
def altAgentSkeleton (st : RunState) : RunState :=
  let st1 := stepRun "create-sandbox" (fun s => { s with sandboxCreations := s.sandboxCreations + 1 }) st
  let st2 := stepRun "load-msgs" (fun s => { s with messageLoads := s.messageLoads + 1 }) st1
  let st3 := stepRun "get-files" (fun s => { s with fileDiscoveries := s.fileDiscoveries + 1 }) st2
  stepRun "save-result" (fun s => { s with dbSaves := s.dbSaves + 1 }) st3

/-- A fresh run instance: nothing completed, no effects. -/
def initialRunState : RunState :=
  ⟨[], 0, 0, 0, 0⟩

/-- The main flow re-invoked `n` times for the same run instance (the durable
step cache carries over between invocations). -/
def invokeMain : Nat → RunState
  | 0 => initialRunState
  | n + 1 => codeAgentSkeleton (invokeMain n)

/-- The part_004 flow re-invoked `n` times for the same run instance. -/
def invokeAlt : Nat → RunState
  | 0 => initialRunState
  | n + 1 => altAgentSkeleton (invokeAlt n)

end Orchestration

/-! ## Concrete scenario inputs used by witnesses and counterexamples -/

/-- A sandbox shape carrying both a `sandboxId` and an explicit `host` field,
to separate the two resolution orders. -/
def hostShapeDemo : Langchain.SandboxShape :=
  ⟨some "abc", none, none, some "explicit.example.com", none⟩

/-- Tool environment whose executors return fixed benign texts. -/
def trivialEnv : Langchain.ToolEnv :=
  ⟨fun _ => Langchain.CmdOutcome.ok "" "", fun _ => "", fun _ => ""⟩

/-- A model that always answers with no text and no tool calls. -/
def emptyResps : Nat → Langchain.ModelResp :=
  fun _ => ⟨"", []⟩

/-- A tool call whose name matches no registered executor. -/
def bogusCall : Langchain.ToolCall :=
  ⟨"bogus", "call-1"⟩

/-- A model that emits the unregistered tool call once, then finishes with
plain text. -/
def bogusResps : Nat → Langchain.ModelResp :=
  fun n => if n = 0 then ⟨"", [bogusCall]⟩ else ⟨"done", []⟩

/-- A batch with one file in a nested directory. -/
def demoFiles : List (String × String) :=
  [("a/b/c.txt", "x")]

/-- A persisted fragment whose stored URL embeds the identifier `abc123`. -/
def frag1 : SandboxManager.Fragment :=
  ⟨[("app/page.tsx", "x")], "https://3000-abc123.e2b.dev"⟩

/-- Environment in which every sandbox answers the liveness probe. -/
def aliveEnv : SandboxManager.RecreateEnv :=
  ⟨fun _ => true, ⟨some "newid", none⟩, fun _ => false⟩

/-- Environment in which no sandbox answers the liveness probe. -/
def deadEnv : SandboxManager.RecreateEnv :=
  ⟨fun _ => false, ⟨some "newid", none⟩, fun _ => false⟩

/-- A server that never responds to the readiness probe. -/
def neverResponds : Nat → Bool :=
  fun _ => false

/-! ## Theorems -/

/-! ### C6 — hostname resolution priority -/

/-- C6 counterexample: the spec claims the explicit `host` field wins over the
identifier-plus-domain derivation; on a sandbox carrying both a truthy `host`
and a truthy `sandboxId`, the code derives `abc.e2b.dev` from the identifier
and ignores `explicit.example.com`. -/
theorem c6_spec_order_false :
    truthy hostShapeDemo.host = true
    ∧ Langchain.getSandboxHostname hostShapeDemo = .ok "abc.e2b.dev"
    ∧ Langchain.getSandboxHostname hostShapeDemo ≠ .ok "explicit.example.com" := by
  refine ⟨rfl, rfl, fun h => absurd (Except.ok.inj h) (by decide)⟩

/-- C6 (amended): resolution tries identifier-plus-domain first, then the bare
identifier with default domain `e2b.dev`, then the callable hostname getter,
then the `host` field, then the `hostname` field, in that priority order, and
throws (never silently defaults) when none of these resolve: the source
resolver agrees with the amended priority-ordered candidate list everywhere. -/
theorem c6_resolution_order (s : Langchain.SandboxShape) :
    Langchain.getSandboxHostname s = Langchain.resolveHostnameAmended s := by
  obtain ⟨i, d, g, h, n⟩ := s
  simp only [Langchain.getSandboxHostname, Langchain.resolveHostnameAmended,
    Langchain.candidateHostnames]
  cases g <;> cases h <;> cases n <;>
    cases h1 : truthy i <;> cases h2 : truthy d <;>
    simp [h1, h2, truthy, Langchain.firstSome] <;>
    split_ifs <;> simp_all [Langchain.firstSome]

/-! ### C8 — the terminal tool executor -/

/-- C8 counterexample: the claim says errors come back "prefixed `Error:`" and
that successes return the combined stdout/stderr; in fact the error text
begins `Error executing command: ` (no `Error:` prefix), and a success with
both streams non-empty returns only stdout, dropping stderr. -/
theorem c8_format_false :
    Langchain.terminalFunc (.err "boom") = "Error executing command: boom"
    ∧ ("Error:".toList.isPrefixOf (Langchain.terminalFunc (.err "boom")).toList) = false
    ∧ Langchain.terminalFunc (.ok "out" "errtext") = "out" := by
  refine ⟨rfl, by decide, rfl⟩

/-- C8 (amended): the terminal executor is a total text-producing function —
for every command outcome it returns non-empty text and never propagates an
exception; a thrown sandbox error is returned as `Error executing command:
<message>`, and a success returns stdout when non-empty, else stderr when
non-empty, else a fixed success message; the agent loop dispatches a
`terminal` call to exactly this function. -/
theorem c8_terminal_total (env : Langchain.ToolEnv) (i m out errS : String) :
    Langchain.terminalFunc (.err m) = "Error executing command: " ++ m
    ∧ Langchain.terminalFunc (.err m) ≠ ""
    ∧ Langchain.terminalFunc (.ok out errS) ≠ ""
    ∧ Langchain.terminalFunc (.ok out errS)
        = (if out ≠ "" then out else if errS ≠ "" then errS else "Command executed successfully")
    ∧ Langchain.dispatchTool env ⟨"terminal", i⟩
        = Langchain.terminalFunc (env.terminalOutcome ⟨"terminal", i⟩) := by
  refine ⟨rfl, ?_, ?_, rfl, rfl⟩
  · intro hEq
    have hd : ("Error executing command: ".data ++ m.data) = "".data :=
      congrArg String.data hEq
    exact absurd (List.append_eq_nil.mp hd).1 (by decide)
  · show (if out ≠ "" then out else if errS ≠ "" then errS else "Command executed successfully") ≠ ""
    split_ifs with hOut hErr
    · exact hOut
    · exact hErr
    · decide

/-! ### Agent-loop lemmas -/

theorem processResp_invocations (st : Langchain.LoopState) (r : Langchain.ModelResp) :
    (Langchain.processResp st r).invocations = st.invocations := by
  unfold Langchain.processResp
  split <;> rfl

theorem processResp_iterations (st : Langchain.LoopState) (r : Langchain.ModelResp) :
    (Langchain.processResp st r).iterations = st.iterations := by
  unfold Langchain.processResp
  split <;> rfl

theorem processResp_msgs (st : Langchain.LoopState) (r : Langchain.ModelResp) :
    st.messages <+: (Langchain.processResp st r).messages := by
  unfold Langchain.processResp
  split
  · exact ⟨_, rfl⟩
  · exact List.prefix_refl _

theorem processResp_invocations_set (st : Langchain.LoopState) (r : Langchain.ModelResp)
    (n : Nat) :
    (Langchain.processResp { st with invocations := n } r).invocations = n := by
  rw [processResp_invocations]

theorem processResp_iterations_set (st : Langchain.LoopState) (r : Langchain.ModelResp)
    (n : Nat) :
    (Langchain.processResp { st with invocations := n } r).iterations = st.iterations := by
  rw [processResp_iterations]

theorem agentLoop_invocations_le (env : Langchain.ToolEnv) (resps : Nat → Langchain.ModelResp) :
    ∀ fuel st, (Langchain.agentLoop env resps fuel st).invocations ≤ st.invocations + fuel := by
  intro fuel
  induction fuel with
  | zero =>
    intro st
    simp [Langchain.agentLoop]
  | succ k ih =>
    intro st
    simp only [Langchain.agentLoop]
    split
    · rw [processResp_invocations_set]
      omega
    · refine le_trans (ih _) ?_
      show (Langchain.processResp { st with invocations := st.invocations + 1 }
        (resps st.invocations)).invocations + k ≤ st.invocations + (k + 1)
      rw [processResp_invocations_set]
      omega

theorem agentLoop_messages_pre (env : Langchain.ToolEnv) (resps : Nat → Langchain.ModelResp) :
    ∀ fuel st, st.messages <+: (Langchain.agentLoop env resps fuel st).messages := by
  intro fuel
  induction fuel with
  | zero =>
    intro st
    simp [Langchain.agentLoop]
  | succ k ih =>
    intro st
    simp only [Langchain.agentLoop]
    split
    · exact processResp_msgs { st with invocations := st.invocations + 1 } _
    · refine List.IsPrefix.trans ?_ (ih _)
      exact (processResp_msgs { st with invocations := st.invocations + 1 }
        (resps st.invocations)).trans ⟨_, rfl⟩

theorem agentLoop_iterations_le (env : Langchain.ToolEnv) (resps : Nat → Langchain.ModelResp) :
    ∀ fuel st, st.iterations ≤ (Langchain.agentLoop env resps fuel st).iterations := by
  intro fuel
  induction fuel with
  | zero =>
    intro st
    simp [Langchain.agentLoop]
  | succ k ih =>
    intro st
    simp only [Langchain.agentLoop]
    split
    · rw [processResp_iterations_set]
    · refine le_trans ?_ (ih _)
      show st.iterations ≤ (Langchain.processResp { st with invocations := st.invocations + 1 }
        (resps st.invocations)).iterations + 1
      rw [processResp_iterations_set]
      omega

theorem agentLoop_step_toolcalls (env : Langchain.ToolEnv) (resps : Nat → Langchain.ModelResp)
    (fuel : Nat) (st : Langchain.LoopState)
    (h : (resps st.invocations).toolCalls.isEmpty = false) :
    Langchain.agentLoop env resps (fuel + 1) st
      = Langchain.agentLoop env resps fuel
          { messages :=
              (Langchain.processResp { st with invocations := st.invocations + 1 }
                (resps st.invocations)).messages
                ++ Langchain.toolTurns env (resps st.invocations).toolCalls
            assistantTexts :=
              (Langchain.processResp { st with invocations := st.invocations + 1 }
                (resps st.invocations)).assistantTexts
            iterations :=
              (Langchain.processResp { st with invocations := st.invocations + 1 }
                (resps st.invocations)).iterations + 1
            invocations :=
              (Langchain.processResp { st with invocations := st.invocations + 1 }
                (resps st.invocations)).invocations } := by
  simp only [Langchain.agentLoop]
  rw [h]
  rfl

/-! ### C2 — termination on an empty turn -/

/-- C2 counterexample: with a model that returns no tool calls and no text on
its very first turn, the loop stops after exactly one model invocation with
no assistant text captured — there is no no-progress counter and no third
empty iteration, contradicting the claim that a single empty turn when no
assistant text exists does not terminate the loop. -/
theorem c2_single_empty_turn_stops :
    (Langchain.agentLoop trivialEnv emptyResps Langchain.maxIterations
      (Langchain.initialState [])).invocations = 1
    ∧ (Langchain.agentLoop trivialEnv emptyResps Langchain.maxIterations
        (Langchain.initialState [])).assistantTexts = []
    ∧ Langchain.maxIterations = 10 :=
  ⟨rfl, rfl, rfl⟩

/-- C2 (amended): the loop keeps no no-progress counter at all — in every
iteration in which the model returns no tool calls, the loop terminates
immediately after processing that response, regardless of how much budget
remains and regardless of whether any assistant text has been produced:
exactly one further model invocation happens. -/
theorem c2_empty_turn_breaks (env : Langchain.ToolEnv) (resps : Nat → Langchain.ModelResp)
    (fuel : Nat) (st : Langchain.LoopState)
    (h : (resps st.invocations).toolCalls = []) :
    (Langchain.agentLoop env resps (fuel + 1) st).invocations = st.invocations + 1 := by
  simp only [Langchain.agentLoop, h, List.isEmpty_nil, if_true]
  exact processResp_invocations _ _

/-- C2 witness: the amended break-at-once behavior at a concrete model trace. -/
theorem c2_empty_turn_breaks_witness :
    (emptyResps (Langchain.initialState []).invocations).toolCalls = []
    ∧ (Langchain.agentLoop trivialEnv emptyResps (9 + 1)
        (Langchain.initialState [])).invocations
        = (Langchain.initialState []).invocations + 1 :=
  ⟨rfl, c2_empty_turn_breaks trivialEnv emptyResps 9 (Langchain.initialState []) rfl⟩

/-! ### C4 — invocation budget and fallback summary -/

/-- C4: every run makes at most `maxIterations` model invocations inside the
while-loop and at most `maxIterations + 1 = 11` in total, and the extra
non-tool fallback summary invocation is issued exactly when the loop captured
no assistant text. -/
theorem c4_invocation_budget (env : Langchain.ToolEnv) (resps : Nat → Langchain.ModelResp)
    (msgs : List Langchain.Msg) :
    (Langchain.runAgent env resps msgs).1.invocations ≤ Langchain.maxIterations + 1
    ∧ (Langchain.agentLoop env resps Langchain.maxIterations
        (Langchain.initialState msgs)).invocations ≤ Langchain.maxIterations
    ∧ (Langchain.runAgent env resps msgs).2
        = (Langchain.agentLoop env resps Langchain.maxIterations
            (Langchain.initialState msgs)).assistantTexts.isEmpty := by
  have hle := agentLoop_invocations_le env resps Langchain.maxIterations
    (Langchain.initialState msgs)
  have hle0 : (Langchain.agentLoop env resps Langchain.maxIterations
      (Langchain.initialState msgs)).invocations ≤ Langchain.maxIterations := by
    simpa using hle
  refine ⟨?_, hle0, ?_⟩
  · simp only [Langchain.runAgent]
    split
    · exact Nat.succ_le_succ hle0
    · exact le_trans hle0 (Nat.le_succ _)
  · simp only [Langchain.runAgent]
    split <;> simp_all

/-! ### C5 — unknown tool names -/

/-- C5: a tool call whose name matches none of the registered executors
(`terminal`, `createOrUpdateFiles`, `readFiles`) never raises: the dispatch
yields the text `Unknown tool: <name>`, the loop appends a tool turn with
exactly that content correlated by the call's id, and the loop proceeds past
that iteration. -/
theorem c5_unknown_tool (env : Langchain.ToolEnv) (resps : Nat → Langchain.ModelResp)
    (fuel : Nat) (st : Langchain.LoopState) (tc : Langchain.ToolCall)
    (hmem : tc ∈ (resps st.invocations).toolCalls)
    (h1 : tc.name ≠ "terminal") (h2 : tc.name ≠ "createOrUpdateFiles")
    (h3 : tc.name ≠ "readFiles") :
    Langchain.dispatchTool env tc = "Unknown tool: " ++ tc.name
    ∧ Langchain.Msg.mk "tool" ("Unknown tool: " ++ tc.name) (some tc.id)
        ∈ (Langchain.agentLoop env resps (fuel + 1) st).messages
    ∧ st.iterations + 1 ≤ (Langchain.agentLoop env resps (fuel + 1) st).iterations := by
  have hd : Langchain.dispatchTool env tc = "Unknown tool: " ++ tc.name := by
    unfold Langchain.dispatchTool
    rw [if_neg h1, if_neg h2, if_neg h3]
  have hne : (resps st.invocations).toolCalls.isEmpty = false := by
    cases hcs : (resps st.invocations).toolCalls with
    | nil => rw [hcs] at hmem; cases hmem
    | cons a l => rfl
  rw [agentLoop_step_toolcalls env resps fuel st hne]
  refine ⟨hd, ?_, ?_⟩
  · refine (agentLoop_messages_pre env resps fuel _).subset ?_
    refine List.mem_append.mpr (Or.inr ?_)
    rw [← hd]
    exact List.mem_map_of_mem _ hmem
  · refine le_trans ?_ (agentLoop_iterations_le env resps fuel _)
    have hi : (Langchain.processResp { st with invocations := st.invocations + 1 }
        (resps st.invocations)).iterations = st.iterations :=
      processResp_iterations _ _
    simp only [hi]
    omega

/-- C5 witness: the unregistered call `bogus` at a concrete trace. -/
theorem c5_unknown_tool_witness :
    bogusCall ∈ (bogusResps (Langchain.initialState []).invocations).toolCalls
    ∧ (Langchain.dispatchTool trivialEnv bogusCall = "Unknown tool: " ++ bogusCall.name
       ∧ Langchain.Msg.mk "tool" ("Unknown tool: " ++ bogusCall.name) (some bogusCall.id)
           ∈ (Langchain.agentLoop trivialEnv bogusResps (9 + 1)
              (Langchain.initialState [])).messages
       ∧ (Langchain.initialState []).iterations + 1
           ≤ (Langchain.agentLoop trivialEnv bogusResps (9 + 1)
              (Langchain.initialState [])).iterations) :=
  ⟨by decide,
    c5_unknown_tool trivialEnv bogusResps 9 (Langchain.initialState []) bogusCall
      (by decide) (by decide) (by decide) (by decide)⟩

/-! ### File-write lemmas -/

theorem ensuredBeforeB_cons_mkdir (created : List String) (d : String)
    (rest : List SandboxManager.FsOp) :
    SandboxManager.ensuredBeforeB created (SandboxManager.FsOp.mkdirP d :: rest)
      = SandboxManager.ensuredBeforeB (d :: created) rest := rfl

theorem ensuredBeforeB_cons_write (created : List String) (p c : String)
    (rest : List SandboxManager.FsOp) :
    SandboxManager.ensuredBeforeB created (SandboxManager.FsOp.write p c :: rest)
      = (SandboxManager.parentEnsured created p && SandboxManager.ensuredBeforeB created rest) :=
  rfl

theorem ensuredBeforeB_mkdirs :
    ∀ (l created : List String) (ops : List SandboxManager.FsOp),
      SandboxManager.ensuredBeforeB created (l.map SandboxManager.FsOp.mkdirP ++ ops)
        = SandboxManager.ensuredBeforeB (l.reverse ++ created) ops := by
  intro l
  induction l with
  | nil =>
    intro created ops
    simp
  | cons d rest ih =>
    intro created ops
    simp only [List.map_cons, List.cons_append, ensuredBeforeB_cons_mkdir,
      List.reverse_cons, List.append_assoc, List.singleton_append]
    exact ih (d :: created) ops

theorem writeFileOps_ensured :
    ∀ (files : List (String × String)) (created : List String),
      SandboxManager.ensuredBeforeB created (SandboxManager.writeFileOps files) = true := by
  intro files
  induction files with
  | nil =>
    intro created
    rfl
  | cons f rest ih =>
    intro created
    have hblock : SandboxManager.writeFileOps (f :: rest)
        = SandboxManager.fileBlock f ++ SandboxManager.writeFileOps rest := rfl
    rw [hblock]
    by_cases hc : (beforeLastSlash ("/home/user/" ++ cleanPath f.1) ≠ ""
        ∧ beforeLastSlash ("/home/user/" ++ cleanPath f.1) ≠ "/home/user")
    · have hfb : SandboxManager.fileBlock f
          = [SandboxManager.FsOp.mkdirP (beforeLastSlash ("/home/user/" ++ cleanPath f.1)),
             SandboxManager.FsOp.write ("/home/user/" ++ cleanPath f.1) f.2] := by
        simp [SandboxManager.fileBlock, hc]
      rw [hfb]
      simp only [List.cons_append, List.nil_append, ensuredBeforeB_cons_mkdir,
        ensuredBeforeB_cons_write, ih]
      simp [SandboxManager.parentEnsured, List.contains_cons]
    · have hfb : SandboxManager.fileBlock f
          = [SandboxManager.FsOp.write ("/home/user/" ++ cleanPath f.1) f.2] := by
        simp [SandboxManager.fileBlock, hc]
      rw [hfb]
      simp only [List.cons_append, List.nil_append, ensuredBeforeB_cons_write, ih]
      rcases not_and_or.mp hc with h | h
      · have he : beforeLastSlash ("/home/user/" ++ cleanPath f.1) = "" := not_not.mp h
        simp [SandboxManager.parentEnsured, he]
      · have he : beforeLastSlash ("/home/user/" ++ cleanPath f.1) = "/home/user" := not_not.mp h
        simp [SandboxManager.parentEnsured, he]

theorem applyOps_cons (fs : SandboxManager.SandboxFS) (op : SandboxManager.FsOp)
    (rest : List SandboxManager.FsOp) :
    SandboxManager.applyOps fs (op :: rest)
      = SandboxManager.applyOps (SandboxManager.applyOp fs op) rest := rfl

theorem applyOps_fileAt :
    ∀ (ops : List SandboxManager.FsOp) (fs : SandboxManager.SandboxFS) (q : String),
      (SandboxManager.applyOps fs ops).fileAt q
        = SandboxManager.orO (SandboxManager.lastWriteIn ops q) (fs.fileAt q) := by
  intro ops
  induction ops with
  | nil =>
    intro fs q
    rfl
  | cons op rest ih =>
    intro fs q
    rw [applyOps_cons, ih]
    cases op with
    | mkdirP d => rfl
    | write p c =>
      show SandboxManager.orO (SandboxManager.lastWriteIn rest q)
          (if q = p then some c else fs.fileAt q)
        = SandboxManager.orO
            (SandboxManager.orO (SandboxManager.lastWriteIn rest q)
              (if q = p then some c else none))
            (fs.fileAt q)
      cases SandboxManager.lastWriteIn rest q with
      | some d => rfl
      | none =>
        by_cases hq : q = p
        · simp [SandboxManager.orO, hq]
        · simp [SandboxManager.orO, hq]

theorem applyOps_dirs :
    ∀ (ops : List SandboxManager.FsOp) (fs : SandboxManager.SandboxFS) (e : String),
      (SandboxManager.applyOps fs ops).dirs e
        = (SandboxManager.hasMkdir ops e || fs.dirs e) := by
  intro ops
  induction ops with
  | nil =>
    intro fs e
    rfl
  | cons op rest ih =>
    intro fs e
    rw [applyOps_cons, ih]
    cases op with
    | mkdirP d =>
      show (SandboxManager.hasMkdir rest e || ((e == d) || fs.dirs e))
        = (((e == d) || SandboxManager.hasMkdir rest e) || fs.dirs e)
      cases (e == d) <;> cases SandboxManager.hasMkdir rest e <;> simp
    | write p c => rfl

theorem applyOps_idempotent (ops : List SandboxManager.FsOp) (fs : SandboxManager.SandboxFS) :
    SandboxManager.applyOps (SandboxManager.applyOps fs ops) ops
      = SandboxManager.applyOps fs ops := by
  apply SandboxManager.SandboxFS.ext
  · funext e
    rw [applyOps_dirs, applyOps_dirs]
    cases SandboxManager.hasMkdir ops e <;> simp
  · funext q
    rw [applyOps_fileAt, applyOps_fileAt]
    cases SandboxManager.lastWriteIn ops q <;> simp [SandboxManager.orO]

/-! ### C7 — directory handling on the file-write path -/

/-- C7 counterexample: the claim says that after the batch pre-creates the
required directories once, no redundant per-file directory-creation call is
made; in fact, for a batch with one file `a/b/c.txt` the per-file pass issues
one more `mkdir -p` for `/home/user/a/b`, so the full trace holds two
directory-creation calls for one required directory. -/
theorem c7_redundant_mkdir :
    SandboxManager.countMkdirs (SandboxManager.writeFileOps demoFiles) = 1
    ∧ SandboxManager.countMkdirs (SandboxManager.writeFilesToSandbox demoFiles) = 2
    ∧ (SandboxManager.dirsToCreate demoFiles).length = 1 :=
  ⟨rfl, rfl, rfl⟩

/-- C7 (amended): before every file write, the parent directory of the
normalized target is ensured (idempotent `mkdir -p`) — the batch pre-creates
the full set of required directories up front and then additionally
re-ensures each file's parent right before its write (a redundant but
harmless per-file call) — and replaying the same batch twice leaves the
sandbox filesystem exactly as after the first replay (idempotence). -/
theorem c7_dirs_before_writes (files : List (String × String))
    (fs : SandboxManager.SandboxFS) :
    SandboxManager.ensuredBeforeB [] (SandboxManager.writeFilesToSandbox files) = true
    ∧ SandboxManager.applyOps
        (SandboxManager.applyOps fs (SandboxManager.writeFilesToSandbox files))
        (SandboxManager.writeFilesToSandbox files)
      = SandboxManager.applyOps fs (SandboxManager.writeFilesToSandbox files) := by
  constructor
  · unfold SandboxManager.writeFilesToSandbox
    rw [ensuredBeforeB_mkdirs]
    exact writeFileOps_ensured files _
  · exact applyOps_idempotent _ _

/-! ### C9 — readiness probing budget -/

theorem probeLoop_never (responds : Nat → Bool) (h : ∀ i, responds i = false) :
    ∀ (n a : Nat), SandboxManager.probeLoop responds n a = (a + n, false) := by
  intro n
  induction n with
  | zero =>
    intro a
    rfl
  | succ k ih =>
    intro a
    simp only [SandboxManager.probeLoop, h a, Bool.false_eq_true, if_false]
    rw [ih]
    have hadd : a + 1 + k = a + (k + 1) := by omega
    rw [hadd]

theorem startNextServer_url (responds : Nat → Bool) (hostname : String) :
    SandboxManager.startNextServer responds hostname
      = SandboxManager.buildSandboxUrl hostname 3000 := by
  unfold SandboxManager.startNextServer
  split <;> rfl

/-- C9: against a server that never responds, the readiness loop performs
exactly its configured budget of 40 attempts, reports not-ready, and
`startNextServer` still returns the best-guess port-3000 address instead of
raising or blocking further. -/
theorem c9_probe_budget (responds : Nat → Bool) (hostname : String)
    (h : ∀ i, responds i = false) :
    SandboxManager.probe responds = (SandboxManager.attemptBudget, false)
    ∧ SandboxManager.startNextServer responds hostname
        = SandboxManager.buildSandboxUrl hostname 3000
    ∧ SandboxManager.attemptBudget = 40 := by
  refine ⟨?_, startNextServer_url responds hostname, rfl⟩
  unfold SandboxManager.probe
  rw [probeLoop_never responds h, Nat.zero_add]

/-- C9 witness: the constant non-responding server. -/
theorem c9_probe_budget_witness :
    (∀ i, neverResponds i = false)
    ∧ (SandboxManager.probe neverResponds = (SandboxManager.attemptBudget, false)
       ∧ SandboxManager.startNextServer neverResponds "abc123.e2b.dev"
           = SandboxManager.buildSandboxUrl "abc123.e2b.dev" 3000
       ∧ SandboxManager.attemptBudget = 40) :=
  ⟨fun _ => rfl, c9_probe_budget neverResponds "abc123.e2b.dev" (fun _ => rfl)⟩

/-! ### C1 and C10 — the reconnect flow -/

theorem hostname_ok_of_truthy (s : SandboxManager.SandboxInfo)
    (h : truthy s.sandboxId = true) :
    ∃ hn, SandboxManager.getSandboxHostname s = .ok hn := by
  unfold SandboxManager.getSandboxHostname
  by_cases h2 : (truthy s.sandboxId && truthy s.sandboxDomain) = true
  · exact ⟨_, by rw [if_pos h2]⟩
  · rw [if_neg h2, if_pos h]
    exact ⟨_, rfl⟩

theorem createNewSandbox_ok (env : SandboxManager.RecreateEnv)
    (frag : SandboxManager.Fragment) (hn : String)
    (h : SandboxManager.getSandboxHostname env.newSandbox = .ok hn) :
    SandboxManager.createNewSandbox env frag
      = .ok ⟨SandboxManager.buildSandboxUrl hn 3000, true,
          SandboxManager.writeFilesToSandbox frag.files⟩ := by
  unfold SandboxManager.createNewSandbox
  rw [h]
  show Except.ok (SandboxManager.RecreateResult.mk
      (if SandboxManager.hasNextApp frag.files = true
        then SandboxManager.startNextServer env.serverResponds hn
        else SandboxManager.buildSandboxUrl hn 3000) true
      (SandboxManager.writeFilesToSandbox frag.files))
    = Except.ok ⟨SandboxManager.buildSandboxUrl hn 3000, true,
        SandboxManager.writeFilesToSandbox frag.files⟩
  rw [startNextServer_url, ite_self]

theorem replayedWrites_mkdirs :
    ∀ (l : List String) (ops : List SandboxManager.FsOp),
      SandboxManager.replayedWrites (l.map SandboxManager.FsOp.mkdirP ++ ops)
        = SandboxManager.replayedWrites ops := by
  intro l
  induction l with
  | nil =>
    intro ops
    rfl
  | cons d rest ih =>
    intro ops
    simp only [List.map_cons, List.cons_append]
    show SandboxManager.replayedWrites (rest.map SandboxManager.FsOp.mkdirP ++ ops) = _
    exact ih ops

theorem replayedWrites_fileOps (files : List (String × String)) :
    SandboxManager.replayedWrites (SandboxManager.writeFileOps files)
      = files.map (fun f => ("/home/user/" ++ cleanPath f.1, f.2)) := by
  induction files with
  | nil => rfl
  | cons f rest ih =>
    have hblock : SandboxManager.writeFileOps (f :: rest)
        = SandboxManager.fileBlock f ++ SandboxManager.writeFileOps rest := rfl
    rw [hblock]
    by_cases hc : (beforeLastSlash ("/home/user/" ++ cleanPath f.1) ≠ ""
        ∧ beforeLastSlash ("/home/user/" ++ cleanPath f.1) ≠ "/home/user")
    · have hfb : SandboxManager.fileBlock f
          = [SandboxManager.FsOp.mkdirP (beforeLastSlash ("/home/user/" ++ cleanPath f.1)),
             SandboxManager.FsOp.write ("/home/user/" ++ cleanPath f.1) f.2] := by
        simp [SandboxManager.fileBlock, hc]
      rw [hfb]
      simp only [List.cons_append, List.nil_append, List.map_cons]
      show SandboxManager.replayedWrites
          (SandboxManager.FsOp.write ("/home/user/" ++ cleanPath f.1) f.2
            :: SandboxManager.writeFileOps rest) = _
      simp only [SandboxManager.replayedWrites, List.filterMap_cons] at ih ⊢
      rw [ih]
    · have hfb : SandboxManager.fileBlock f
          = [SandboxManager.FsOp.write ("/home/user/" ++ cleanPath f.1) f.2] := by
        simp [SandboxManager.fileBlock, hc]
      rw [hfb]
      simp only [List.cons_append, List.nil_append, List.map_cons]
      simp only [SandboxManager.replayedWrites, List.filterMap_cons] at ih ⊢
      rw [ih]

theorem map_clean_eq_of_normal (files : List (String × String))
    (h : ∀ f ∈ files, cleanPath f.1 = f.1) :
    files.map (fun f => ("/home/user/" ++ cleanPath f.1, f.2))
      = files.map (fun f => ("/home/user/" ++ f.1, f.2)) := by
  induction files with
  | nil => rfl
  | cons f rest ih =>
    simp only [List.map_cons]
    rw [h f (List.mem_cons_self f rest),
      ih (fun g hg => h g (List.mem_cons_of_mem f hg))]

/-- C1: for a fragment whose stored URL embeds a still-alive sandbox
identifier, `getOrRecreateSandbox` reconnects and returns the very same
stored URL with `isNew = false` and replays nothing; for a fragment whose
embedded sandbox is dead, it creates a fresh sandbox, returns `isNew = true`
with the new sandbox's port-3000 address, and the set of files replayed onto
the new sandbox is exactly the persisted FileSet, path for path (rooted at
the `/home/user` working root) and content for content. -/
theorem c1_reconnect_roundtrip (env1 env2 : SandboxManager.RecreateEnv)
    (f1 f2 : SandboxManager.Fragment) (sid1 sid2 : String)
    (h1 : SandboxManager.extractSandboxId f1.sandboxUrl = some sid1)
    (h2 : env1.alive sid1 = true)
    (h3 : SandboxManager.extractSandboxId f2.sandboxUrl = some sid2)
    (h4 : env2.alive sid2 = false)
    (h5 : truthy env2.newSandbox.sandboxId = true)
    (h6 : ∀ f ∈ f2.files, cleanPath f.1 = f.1) :
    SandboxManager.getOrRecreateSandbox env1 f1 = .ok ⟨f1.sandboxUrl, false, []⟩
    ∧ ∃ hn, SandboxManager.getSandboxHostname env2.newSandbox = .ok hn
        ∧ SandboxManager.getOrRecreateSandbox env2 f2
            = .ok ⟨SandboxManager.buildSandboxUrl hn 3000, true,
                SandboxManager.writeFilesToSandbox f2.files⟩
        ∧ SandboxManager.replayedWrites (SandboxManager.writeFilesToSandbox f2.files)
            = f2.files.map (fun f => ("/home/user/" ++ f.1, f.2)) := by
  constructor
  · unfold SandboxManager.getOrRecreateSandbox
    rw [h1]
    show (if env1.alive sid1 = true then _ else _) = _
    rw [if_pos h2]
  · obtain ⟨hn, hhn⟩ := hostname_ok_of_truthy env2.newSandbox h5
    refine ⟨hn, hhn, ?_, ?_⟩
    · unfold SandboxManager.getOrRecreateSandbox
      rw [h3]
      show (if env2.alive sid2 = true then _ else _) = _
      rw [if_neg (by simp [h4]), createNewSandbox_ok env2 f2 hn hhn]
    · unfold SandboxManager.writeFilesToSandbox
      rw [replayedWrites_mkdirs, replayedWrites_fileOps,
        map_clean_eq_of_normal f2.files h6]

/-- C1 witness: the same stored fragment against an all-alive and an all-dead
liveness oracle. -/
theorem c1_reconnect_roundtrip_witness :
    SandboxManager.extractSandboxId frag1.sandboxUrl = some "abc123"
    ∧ aliveEnv.alive "abc123" = true
    ∧ deadEnv.alive "abc123" = false
    ∧ truthy deadEnv.newSandbox.sandboxId = true
    ∧ (∀ f ∈ frag1.files, cleanPath f.1 = f.1)
    ∧ (SandboxManager.getOrRecreateSandbox aliveEnv frag1
          = .ok ⟨frag1.sandboxUrl, false, []⟩
       ∧ ∃ hn, SandboxManager.getSandboxHostname deadEnv.newSandbox = .ok hn
           ∧ SandboxManager.getOrRecreateSandbox deadEnv frag1
               = .ok ⟨SandboxManager.buildSandboxUrl hn 3000, true,
                   SandboxManager.writeFilesToSandbox frag1.files⟩
           ∧ SandboxManager.replayedWrites (SandboxManager.writeFilesToSandbox frag1.files)
               = frag1.files.map (fun f => ("/home/user/" ++ f.1, f.2))) :=
  ⟨by decide, rfl, rfl, rfl, by decide,
    c1_reconnect_roundtrip aliveEnv deadEnv frag1 frag1 "abc123" "abc123"
      (by decide) rfl (by decide) rfl rfl (by decide)⟩

/-- C10: `getOrRecreateSandbox` returns `isNew = false` (with the stored URL)
exactly when the stored URL matches `https://<digits>-<identifier>` (the
leftmost such occurrence, identifier read up to the first dot) and the
liveness probe of the extracted identifier succeeds; for any stored URL with
no such match it unconditionally creates a fresh sandbox and reports
`isNew = true`, whatever the liveness oracle says. -/
theorem c10_reuse_condition (env : SandboxManager.RecreateEnv)
    (frag : SandboxManager.Fragment) (r : SandboxManager.RecreateResult)
    (h : SandboxManager.getOrRecreateSandbox env frag = .ok r) :
    (r.isNew = false
      ↔ ∃ sid, SandboxManager.extractSandboxId frag.sandboxUrl = some sid
          ∧ env.alive sid = true)
    ∧ (r.isNew = false → r.url = frag.sandboxUrl) := by
  have hcreate : ∀ r2 : SandboxManager.RecreateResult,
      SandboxManager.createNewSandbox env frag = .ok r2 → r2.isNew = true := by
    intro r2 hr2
    unfold SandboxManager.createNewSandbox at hr2
    cases hh : SandboxManager.getSandboxHostname env.newSandbox with
    | error e =>
      rw [hh] at hr2
      cases hr2
    | ok hn =>
      rw [hh] at hr2
      exact (Except.ok.inj hr2) ▸ rfl
  unfold SandboxManager.getOrRecreateSandbox at h
  cases hm : SandboxManager.extractSandboxId frag.sandboxUrl with
  | some sid =>
    rw [hm] at h
    have h2 : (if env.alive sid = true
        then (Except.ok ⟨frag.sandboxUrl, false, []⟩ : Except String SandboxManager.RecreateResult)
        else SandboxManager.createNewSandbox env frag) = Except.ok r := h
    by_cases ha : env.alive sid = true
    · rw [if_pos ha] at h2
      have hr : SandboxManager.RecreateResult.mk frag.sandboxUrl false [] = r :=
        Except.ok.inj h2
      subst hr
      exact ⟨⟨fun _ => ⟨sid, rfl, ha⟩, fun _ => rfl⟩, fun _ => rfl⟩
    · rw [if_neg ha] at h2
      have ht := hcreate r h2
      refine ⟨⟨fun hf => ?_, ?_⟩, fun hf => ?_⟩
      · rw [ht] at hf
        simp at hf
      · rintro ⟨sid', hs', ha'⟩
        injection hs' with he
        subst he
        exact absurd ha' ha
      · rw [ht] at hf
        simp at hf
  | none =>
    rw [hm] at h
    have h2 : SandboxManager.createNewSandbox env frag = Except.ok r := h
    have ht := hcreate r h2
    refine ⟨⟨fun hf => ?_, ?_⟩, fun hf => ?_⟩
    · rw [ht] at hf
      simp at hf
    · rintro ⟨sid', hs', _⟩
      cases hs'
    · rw [ht] at hf
      simp at hf

/-- C10 witness: the reuse branch at a concrete matching URL and an alive
sandbox. -/
theorem c10_reuse_condition_witness :
    SandboxManager.getOrRecreateSandbox aliveEnv frag1
        = .ok ⟨frag1.sandboxUrl, false, []⟩
    ∧ (((SandboxManager.RecreateResult.mk frag1.sandboxUrl false []).isNew = false
         ↔ ∃ sid, SandboxManager.extractSandboxId frag1.sandboxUrl = some sid
             ∧ aliveEnv.alive sid = true)
       ∧ ((SandboxManager.RecreateResult.mk frag1.sandboxUrl false []).isNew = false
         → (SandboxManager.RecreateResult.mk frag1.sandboxUrl false []).url
             = frag1.sandboxUrl)) :=
  ⟨rfl, c10_reuse_condition aliveEnv frag1 (SandboxManager.RecreateResult.mk frag1.sandboxUrl false []) rfl⟩

/-! ### C3 — step checkpointing -/

/-- C3 counterexample: re-invoking the main flow a second time for the same
run instance creates a second sandbox (creation is a direct `Sandbox.create`,
not routed through `step.run`), while the step-wrapped database save still
runs only once — contradicting the claim that sandbox creation is
checkpointed and a retried run never creates a second sandbox. -/
theorem c3_sandbox_recreated :
    (Orchestration.invokeMain 2).sandboxCreations = 2
    ∧ (Orchestration.invokeMain 2).dbSaves = 1
    ∧ (Orchestration.invokeMain 2).messageLoads = 1 :=
  ⟨rfl, rfl, rfl⟩

/-- C3 (amended): in the main flow, message loading, file discovery and
result persistence each run through `step.run` under a stable name and
execute at most once across any number of re-invocations of the same run
instance, but sandbox creation is invoked directly outside `step.run`, so
`n + 1` invocations create `n + 1` sandboxes; in the alternate part_004 flow,
creation is wrapped in `step.run("create-sandbox", ...)` and happens exactly
once. -/
theorem c3_checkpoint_coverage (n : Nat) :
    (Orchestration.invokeMain (n + 1)).messageLoads = 1
    ∧ (Orchestration.invokeMain (n + 1)).fileDiscoveries = 1
    ∧ (Orchestration.invokeMain (n + 1)).dbSaves = 1
    ∧ (Orchestration.invokeMain (n + 1)).sandboxCreations = n + 1
    ∧ (Orchestration.invokeAlt (n + 1)).sandboxCreations = 1 := by
  have hmain : ∀ m : Nat, Orchestration.invokeMain (m + 1)
      = ⟨["load-messages", "discover-files", "save-to-database"], m + 1, 1, 1, 1⟩ := by
    intro m
    induction m with
    | zero => rfl
    | succ k ih =>
      show Orchestration.codeAgentSkeleton (Orchestration.invokeMain (k + 1)) = _
      rw [ih]
      rfl
  have halt : ∀ m : Nat, Orchestration.invokeAlt (m + 1)
      = ⟨["create-sandbox", "load-msgs", "get-files", "save-result"], 1, 1, 1, 1⟩ := by
    intro m
    induction m with
    | zero => rfl
    | succ k ih =>
      show Orchestration.altAgentSkeleton (Orchestration.invokeAlt (k + 1)) = _
      rw [ih]
      rfl
  rw [hmain n, halt n]
  exact ⟨rfl, rfl, rfl, rfl, rfl⟩

end Nelta
